import Mathlib

/-!
Shallow embedding of `src/app.py` (streamlit-compress-video).

Python floats are modelled as exact rationals (`ℚ`), Python ints as `ℤ`.
A Python expression that can raise is modelled in `Except Unit`:
`.error ()` stands for a raised exception, `.ok v` for a normal value.
-/

/-- Result of a Python computation that may raise an exception. -/
abbrev Py (α : Type) := Except Unit α

instance {ε α : Type} [DecidableEq ε] [DecidableEq α] : DecidableEq (Except ε α) := fun a b =>
  match a, b with
  | .error e, .error f =>
      if h : e = f then .isTrue (congrArg Except.error h)
      else .isFalse (fun c => h (Except.error.inj c))
  | .ok x, .ok y =>
      if h : x = y then .isTrue (congrArg Except.ok h)
      else .isFalse (fun c => h (Except.ok.inj c))
  | .error _, .ok _ => .isFalse (fun c => Except.noConfusion c)
  | .ok _, .error _ => .isFalse (fun c => Except.noConfusion c)

/-- Python true division `a / b`: raises `ZeroDivisionError` when `b == 0`. -/
def pyDiv (a b : ℚ) : Py ℚ :=
  if b = 0 then .error () else .ok (a / b)

/-- Value of a list of decimal digit characters, most significant first. -/
def digitsVal (ds : List Char) : ℤ :=
  ds.foldl (fun acc c => 10 * acc + ((c.toNat : ℤ) - 48)) 0

/-- Python `int(...)` on a list of characters, restricted to the shapes
reachable here: an optional leading minus sign followed by decimal digits;
anything else raises. -/
def pyIntChars (l : List Char) : Py ℤ :=
  match l with
  | [] => .error ()
  | c :: rest =>
      if c = '-' then
        if rest ≠ [] ∧ rest.all (fun x => x.isDigit) then .ok (-(digitsVal rest))
        else .error ()
      else
        if (c :: rest).all (fun x => x.isDigit) then .ok (digitsVal (c :: rest))
        else .error ()

/-- Python `int(s)` on a string. -/
def pyInt (s : String) : Py ℤ :=
  pyIntChars s.data

/-- Python `s.split(sep)` for a single-character separator: splits at every
occurrence of `sep`, keeping empty parts (so the result is always nonempty). -/
def splitOnChar (sep : Char) : List Char → List (List Char)
  | [] => [[]]
  | c :: rest =>
      match splitOnChar sep rest with
      | [] => [[]]
      | h :: t => if c = sep then [] :: h :: t else (c :: h) :: t

/-- Python `s.replace('k', '000')` (the pattern is a single character, so this
is a per-character substitution). -/
def replaceK (s : String) : String :=
  String.mk (s.data.flatMap (fun c => if c = 'k' then ['0', '0', '0'] else [c]))

/-- Line 43 of app.py: `int(bitrate.replace('k', '000'))`. -/
def parseBitrate (bitrate : String) : Py ℤ :=
  pyInt (replaceK bitrate)

/-- Line 49 of app.py: `target_width, target_height = map(int, resolution.split('x'))`.
Unpacking raises unless the split yields exactly two int-parsable parts. -/
def parseResolution (resolution : String) : Py (ℤ × ℤ) :=
  match splitOnChar 'x' resolution.data with
  | [a, b] => do
      let w ← pyIntChars a
      let h ← pyIntChars b
      pure (w, h)
  | _ => .error ()

/-- Line 63 of app.py: `eval(...)` applied to a frame-rate string. The probe
only ever supplies rational literals `"num/den"` (or a bare integer), so the
model evaluates exactly those; a zero denominator raises, as in Python. -/
def evalFrameRate (s : String) : Py ℚ :=
  match splitOnChar '/' s.data with
  | [a] => do
      let n ← pyIntChars a
      pure (n : ℚ)
  | [a, b] => do
      let n ← pyIntChars a
      let d ← pyIntChars b
      pyDiv (n : ℚ) (d : ℚ)
  | _ => .error ()

/-- The dict returned by `get_video_info` (app.py lines 25-32).
`rFrameRate` models the presence of an `r_frame_rate` key in the dict that
`estimate_size` receives; `get_video_info` never puts that key in. -/
structure VideoInfo where
  width : ℤ
  height : ℤ
  duration : ℚ
  bitrate : ℤ
  size : ℚ
  has_audio : Bool
  rFrameRate : Option String
deriving Repr, DecidableEq

/-- One entry of `probe['streams']` as read by `get_video_info`: its
`codec_type`, optional `width`/`height`, and the frame-rate rational string
that ffprobe always attaches to a video stream. -/
structure ProbeStream where
  codec_type : String
  width : Option ℤ
  height : Option ℤ
  r_frame_rate : String
deriving Repr, DecidableEq

/-- The `format` section of the probe as read by `get_video_info`. -/
structure ProbeFormat where
  duration : Option ℚ
  bit_rate : Option ℤ
  size : Option ℚ
deriving Repr, DecidableEq

/-- Output of `ffmpeg.probe` as read by `get_video_info`. -/
structure ProbeData where
  streams : List ProbeStream
  format : ProbeFormat
deriving Repr, DecidableEq

/-- app.py lines 18-35. Finds the first video and first audio stream and
builds the info dict. When there is no video stream, `video_info.get`
raises on `None` and the handler returns `None`. Note that the returned
dict has no `r_frame_rate` key. -/
def get_video_info (probe : ProbeData) : Option VideoInfo :=
  match probe.streams.find? (fun s => s.codec_type = "video") with
  | none => none
  | some v =>
      let audio := probe.streams.find? (fun s => s.codec_type = "audio")
      some
        { width := v.width.getD 0
          height := v.height.getD 0
          duration := probe.format.duration.getD 0
          bitrate := probe.format.bit_rate.getD 0
          size := probe.format.size.getD 0
          has_audio := audio.isSome
          rFrameRate := none }

/-- app.py lines 46-55: the resolution factor block of `estimate_size`. -/
def resolutionFactorOf (info : VideoInfo) (resolution : String) : Py ℚ :=
  if resolution = "original" then .ok 1
  else do
    let wh ← parseResolution resolution
    let original_area := info.width * info.height
    let target_area := wh.1 * wh.2
    if original_area > 0 then
      pure ((target_area : ℚ) / (original_area : ℚ))
    else
      pure 1

/-- app.py lines 57-68: the fps factor block of `estimate_size`. The
`try`/`except` around `eval` keeps `original_fps = 30` on any failure;
the final division is outside the `try` and can raise. -/
def fpsFactorOf (info : VideoInfo) (fps : String) : Py ℚ :=
  if fps = "original" then .ok 1
  else do
    let original_fps : ℚ :=
      match evalFrameRate ((info.rFrameRate).getD "30/1") with
      | .ok v => v
      | .error _ => 30
    let target_fps ← pyInt fps
    pyDiv (target_fps : ℚ) original_fps

/-- app.py line 71: `0.85 if remove_audio and video_info['has_audio'] else 1.0`. -/
def audioFactorOf (remove_audio : Bool) (info : VideoInfo) : ℚ :=
  if remove_audio && info.has_audio then 0.85 else 1

/-- app.py lines 37-77: `estimate_size`. Returns `ok none` when
`video_info` is `None`; otherwise computes the estimate and converts it
to megabytes (line 75) before returning. -/
def estimate_size (video_info : Option VideoInfo) (resolution : String)
    (remove_audio : Bool) (fps : String) (bitrate : String) : Py (Option ℚ) :=
  match video_info with
  | none => .ok none
  | some info => do
      let bitrate_value ← parseBitrate bitrate
      let duration := info.duration
      let resolution_factor ← resolutionFactorOf info resolution
      let fps_factor ← fpsFactorOf info fps
      let audio_factor := audioFactorOf remove_audio info
      let estimated_bytes :=
        ((bitrate_value : ℚ) / 8) * duration * resolution_factor * fps_factor * audio_factor
      pure (some (estimated_bytes / (1024 * 1024)))

/-- The size formula exactly as the specification words it:
`estimatedBytes = (targetBitrateBps / 8) * durationSeconds * resolutionFactor * fpsFactor * audioFactor`. -/
def specEstimatedBytes (bitrateBps duration rf ff af : ℚ) : ℚ :=
  (bitrateBps / 8) * duration * rf * ff * af

/-!
Batch orchestration: the compress-button handler of `main`
(app.py lines 256-322).
-/

/-- One uploaded video as stored in `videos_data` (app.py lines 189-195):
display name, staged temp-file path (unique per upload), original size in MB
from `get_file_size`, and the selection checkbox. -/
structure UploadedVideo where
  name : String
  path : String
  originalSize : ℚ
  selected : Bool
deriving Repr, DecidableEq

/-- What `compress_video` returns for one item: `True` (with the output
file's size in MB then read by `get_file_size`) or `False`. The encoder is an
external process, so the outcome is supplied with the item. -/
inductive EncodeOutcome where
  | success (compressedSize : ℚ)
  | failure
deriving Repr, DecidableEq

/-- `tempfile.gettempdir()`: a fixed directory for the whole run. -/
def tempDir : String := "/tmp"

/-- app.py lines 273-274: `os.path.join(tempfile.gettempdir(), f"compressed_...")`
applied to the item's display name. -/
def outputPathFor (name : String) : String :=
  tempDir ++ "/" ++ "compressed_" ++ name

/-- One entry of `compressed_videos` (app.py lines 288-293). -/
structure CompressedEntry where
  name : String
  outputPath : String
  originalSize : ℚ
  compressedSize : ℚ
deriving Repr, DecidableEq

/-- A batch run pairs each uploaded video with the outcome its
`compress_video` call would have; outcomes of unselected videos are unused. -/
abbrev Batch := List (UploadedVideo × EncodeOutcome)

/-- app.py line 258: `[v for k, v in videos_data.items() if v["selected_for_compression"]]`. -/
def selectedOf (batch : Batch) : Batch :=
  batch.filter (fun vo => vo.1.selected)

/-- app.py lines 269-296: the sequential compress loop over the selected
videos. A success appends a `CompressedEntry`; a failure appends nothing and
the loop continues with the next item. -/
def compressSelected (batch : Batch) : List CompressedEntry :=
  (selectedOf batch).foldl
    (fun acc vo =>
      match vo.2 with
      | .success s => acc ++ [{ name := vo.1.name,
                                outputPath := outputPathFor vo.1.name,
                                originalSize := vo.1.originalSize,
                                compressedSize := s }]
      | .failure => acc)
    []

/-- The `compress_video(input, output, ...)` invocations the loop performs:
exactly one per selected video, in order, regardless of outcomes. -/
def encodeInvocations (batch : Batch) : List (String × String) :=
  (selectedOf batch).map (fun vo => (vo.1.path, outputPathFor vo.1.name))

/-- The totals block of the results section (app.py lines 307-321).
`reduction` is `(1 - total_compressed/total_original) * 100`, whose division
raises when `total_original == 0`. -/
structure ReportStats where
  totalOriginal : ℚ
  totalCompressed : ℚ
  reduction : Py ℚ
deriving DecidableEq

/-- app.py lines 303-321: the results section runs only when
`compressed_videos` is nonempty (`if compressed_videos:`). -/
def reportOf (results : List CompressedEntry) : Option ReportStats :=
  if results.isEmpty then none
  else
    let total_original := (results.map (fun v => v.originalSize)).sum
    let total_compressed := (results.map (fun v => v.compressedSize)).sum
    some
      { totalOriginal := total_original
        totalCompressed := total_compressed
        reduction := do
          let q ← pyDiv total_compressed total_original
          pure ((1 - q) * 100) }

/-- What pressing the compress button produces (app.py lines 256-322):
either the warning for an empty selection, or a run with its encode
invocations, its successful results, and the stats section (if shown). -/
inductive ButtonResult where
  | warned
  | ran (invocations : List (String × String)) (results : List CompressedEntry)
      (stats : Option ReportStats)
deriving DecidableEq

/-- app.py lines 256-322: the compress-button handler. -/
def pressCompress (batch : Batch) : ButtonResult :=
  if (selectedOf batch).isEmpty then .warned
  else .ran (encodeInvocations batch) (compressSelected batch)
      (reportOf (compressSelected batch))

/-- The stats section of a button result, `none` when nothing was shown. -/
def statsOf : ButtonResult → Option ReportStats
  | .warned => none
  | .ran _ _ stats => stats

/-- Number of `compress_video` calls a button result performed. -/
def invocationCount : ButtonResult → ℕ
  | .warned => 0
  | .ran invocations _ _ => invocations.length

/-!
Filesystem view of the compress loop, for the output-path collision claim.
A file system is an association list from path to file content; the content
written by a successful encode is identified by the encode's staged input
path (unique per uploaded item). `compress_video` always runs ffmpeg with
`overwrite_output` (app.py lines 117-118), so a write replaces any existing
file at the same path.
-/

/-- Overwriting write: replaces the entry at `p` if present, appends otherwise. -/
def fsWrite (fs : List (String × String)) (p content : String) : List (String × String) :=
  if fs.any (fun e => e.1 = p) then
    fs.map (fun e => if e.1 = p then (p, content) else e)
  else
    fs ++ [(p, content)]

/-- Content of the file at `p`, if any. -/
def fsRead (fs : List (String × String)) (p : String) : Option String :=
  (fs.find? (fun e => e.1 = p)).map (fun e => e.2)

/-- The files the compress loop leaves in the temp directory: each successful
encode of a selected video writes (the encode of) its input at
`outputPathFor name`, overwriting whatever is there. -/
def runEncodesFS (batch : Batch) (fs : List (String × String)) : List (String × String) :=
  (selectedOf batch).foldl
    (fun acc vo =>
      match vo.2 with
      | .success _ => fsWrite acc (outputPathFor vo.1.name) vo.1.path
      | .failure => acc)
    fs

/-! Helper lemmas. -/

theorem ok_bind {α β : Type} (x : α) (f : α → Py β) :
    ((Except.ok x : Py α) >>= f) = f x := rfl

theorem error_bind {α β : Type} (f : α → Py β) :
    ((Except.error () : Py α) >>= f) = Except.error () := rfl

theorem ok_map {α β : Type} (g : α → β) (x : α) :
    (g <$> (Except.ok x : Py α)) = Except.ok (g x) := rfl

theorem error_map {α β : Type} (g : α → β) :
    (g <$> (Except.error () : Py α)) = Except.error () := rfl

/-- The dict built by `get_video_info` never contains an `r_frame_rate` key. -/
theorem get_video_info_rFrameRate (p : ProbeData) (info : VideoInfo)
    (h : get_video_info p = some info) : info.rFrameRate = none := by
  unfold get_video_info at h
  cases hf : p.streams.find? (fun s => s.codec_type = "video") with
  | none => rw [hf] at h; simp at h
  | some v =>
      rw [hf] at h
      simp only [Option.some.injEq] at h
      rw [← h]

/-- Numeric evaluation of the default frame-rate string. -/
theorem evalFrameRate_default : evalFrameRate "30/1" = .ok 30 := by
  simp +decide [evalFrameRate, splitOnChar, pyIntChars, digitsVal, pyDiv, ok_bind]

/-- Successful runs of `estimate_size` are exactly the runs where the three
parsers and factors succeed, and the value is the spec formula divided into
megabytes. -/
theorem estimate_size_ok_iff (info : VideoInfo) (res : String) (ra : Bool)
    (fps br : String) (v : ℚ) :
    estimate_size (some info) res ra fps br = .ok (some v) ↔
      ∃ b rf ff, parseBitrate br = .ok b ∧ resolutionFactorOf info res = .ok rf ∧
        fpsFactorOf info fps = .ok ff ∧
        v = ((b : ℚ) / 8) * info.duration * rf * ff * audioFactorOf ra info / (1024 * 1024) := by
  constructor
  · intro h
    simp only [estimate_size] at h
    cases hb : parseBitrate br with
    | error e => cases e; rw [hb, error_bind] at h; exact absurd h (by simp)
    | ok b =>
        rw [hb, ok_bind] at h
        cases hr : resolutionFactorOf info res with
        | error e => cases e; rw [hr, error_bind] at h; exact absurd h (by simp)
        | ok rf =>
            rw [hr, ok_bind] at h
            cases hf : fpsFactorOf info fps with
            | error e => cases e; rw [hf, error_bind] at h; exact absurd h (by simp)
            | ok ff =>
                rw [hf, ok_bind] at h
                refine ⟨b, rf, ff, rfl, rfl, rfl, ?_⟩
                have := (Except.ok.inj h)
                have := Option.some.inj this
                rw [← this]
  · rintro ⟨b, rf, ff, hb, hr, hf, rfl⟩
    simp only [estimate_size, hb, hr, hf, ok_bind]
    rfl

/-- The compress loop is a filter-map over the selected items: successes
contribute their entry, failures contribute nothing, later items are
processed no matter what happened earlier. -/
theorem compressLoop_filterMap (l : Batch) (acc : List CompressedEntry) :
    l.foldl
      (fun acc vo =>
        match vo.2 with
        | .success s => acc ++ [{ name := vo.1.name,
                                  outputPath := outputPathFor vo.1.name,
                                  originalSize := vo.1.originalSize,
                                  compressedSize := s }]
        | .failure => acc)
      acc =
    acc ++ l.filterMap
      (fun vo =>
        match vo.2 with
        | .success s => some { name := vo.1.name,
                               outputPath := outputPathFor vo.1.name,
                               originalSize := vo.1.originalSize,
                               compressedSize := s }
        | .failure => none) := by
  induction l generalizing acc with
  | nil => simp
  | cons hd tl ih =>
      obtain ⟨w, o⟩ := hd
      cases o with
      | success s => simp [List.foldl_cons, List.filterMap_cons, ih]
      | failure => simp [List.foldl_cons, List.filterMap_cons, ih]

/-- A decimal digit character is neither the suffix character nor a sign. -/
theorem isDigit_ne (c : Char) (h : c.isDigit = true) : c ≠ 'k' ∧ c ≠ '-' := by
  refine ⟨fun hc => ?_, fun hc => ?_⟩ <;> subst hc <;> exact absurd h (by decide)

/-- Replacing `k` by `000` leaves a list of digit characters unchanged. -/
theorem flatMapK_digits (l : List Char) (h : l.all (fun c => c.isDigit) = true) :
    l.flatMap (fun c => if c = 'k' then ['0', '0', '0'] else [c]) = l := by
  induction l with
  | nil => rfl
  | cons c t ih =>
      simp only [List.all_cons, Bool.and_eq_true] at h
      have hck : c ≠ 'k' := (isDigit_ne c h.1).1
      simp [hck, ih h.2]

/-- Appending three zero digits multiplies the value by 1000. -/
theorem digitsVal_append_zeros (l : List Char) :
    digitsVal (l ++ ['0', '0', '0']) = 1000 * digitsVal l := by
  have hz : ((('0'.toNat : ℤ)) - 48) = 0 := by decide
  simp only [digitsVal, List.foldl_append, List.foldl_cons, List.foldl_nil, hz]
  ring

/-- C7: for every bitrate string made of decimal digits followed by the
suffix `k`, `int(bitrate.replace('k', '000'))` yields the numeric prefix
multiplied by 1000. -/
theorem parseBitrate_k_suffix (ds : List Char) (h1 : ds ≠ [])
    (h2 : ds.all (fun c => c.isDigit) = true) :
    parseBitrate (String.mk (ds ++ ['k'])) = .ok (digitsVal ds * 1000) := by
  cases ds with
  | nil => exact absurd rfl h1
  | cons d t =>
      simp only [List.all_cons, Bool.and_eq_true] at h2
      have hdd : d ≠ '-' := (isDigit_ne d h2.1).2
      have hflat : (d :: t).flatMap (fun c => if c = 'k' then ['0', '0', '0'] else [c])
          = d :: t :=
        flatMapK_digits _ (by simp [List.all_cons, h2.1, h2.2])
      have hdata : (replaceK (String.mk ((d :: t) ++ ['k']))).data
          = (d :: t) ++ ['0', '0', '0'] := by
        simp only [replaceK]
        show ((d :: t) ++ ['k']).flatMap _ = _
        rw [List.flatMap_append, hflat]
        rfl
      show pyIntChars (replaceK (String.mk ((d :: t) ++ ['k']))).data = _
      rw [hdata]
      show pyIntChars (d :: (t ++ ['0', '0', '0'])) = _
      simp only [pyIntChars, hdd, if_false]
      have hall : (d :: (t ++ ['0', '0', '0'])).all (fun x => x.isDigit) = true := by
        simp [List.all_cons, List.all_append, h2.1, h2.2]
      rw [if_pos hall]
      have : digitsVal (d :: (t ++ ['0', '0', '0'])) = 1000 * digitsVal (d :: t) := by
        have := digitsVal_append_zeros (d :: t)
        simpa using this
      rw [this, Int.mul_comm]

/-- C7 witness: `"1500k"` parses to 1,500,000. -/
theorem parseBitrate_k_suffix_witness :
    parseBitrate (String.mk (['1', '5', '0', '0'] ++ ['k'])) = .ok 1500000 ∧
    String.mk (['1', '5', '0', '0'] ++ ['k']) = "1500k" := by
  constructor
  · have h := parseBitrate_k_suffix ['1', '5', '0', '0'] (by decide) (by decide)
    rw [h]
    decide
  · decide

/-- C6: when the source has no audio stream, requesting audio removal does
not change the estimate (the 0.85 factor needs `remove_audio` and
`has_audio` together). -/
theorem estimate_removeAudio_noop_without_audio (info : VideoInfo)
    (res fps br : String) (h : info.has_audio = false) :
    estimate_size (some info) res true fps br
      = estimate_size (some info) res false fps br := by
  simp [estimate_size, audioFactorOf, h]

/-- C6 witness: concrete audio-less metadata gives the same estimate with
and without audio removal. -/
theorem estimate_removeAudio_noop_without_audio_witness :
    estimate_size
        (some { width := 1920, height := 1080, duration := 10, bitrate := 0,
                size := 0, has_audio := false, rFrameRate := none })
        "1280x720" true "24" "1000k"
      = estimate_size
          (some { width := 1920, height := 1080, duration := 10, bitrate := 0,
                  size := 0, has_audio := false, rFrameRate := none })
          "1280x720" false "24" "1000k" :=
  estimate_removeAudio_noop_without_audio _ "1280x720" "24" "1000k" rfl

/-- C8: with zero selected videos, pressing the compress button produces the
warning branch and performs no encode invocation. -/
theorem empty_selection_warns (batch : Batch)
    (h : (selectedOf batch).isEmpty = true) :
    pressCompress batch = .warned ∧ invocationCount (pressCompress batch) = 0 := by
  have hw : pressCompress batch = .warned := by simp [pressCompress, h]
  exact ⟨hw, by rw [hw]; rfl⟩

/-- C8 witness: a batch whose single video is deselected only warns. -/
theorem empty_selection_warns_witness :
    pressCompress
        [({ name := "a.mp4", path := "/tmp/in_a", originalSize := 10,
            selected := false }, .success 3)] = .warned ∧
    invocationCount
        (pressCompress
          [({ name := "a.mp4", path := "/tmp/in_a", originalSize := 10,
              selected := false }, .success 3)]) = 0 :=
  empty_selection_warns _ rfl

/-- C9: output paths depend only on the fixed temp directory and the
display name, so two selected items with the same display name share one
output path and the later successful encode overwrites the earlier output. -/
theorem duplicate_names_overwrite (a b : UploadedVideo) (s₁ s₂ : ℚ)
    (hname : a.name = b.name) (ha : a.selected = true) (hb : b.selected = true) :
    outputPathFor a.name = outputPathFor b.name ∧
    fsRead (runEncodesFS [(a, .success s₁), (b, .success s₂)] [])
        (outputPathFor a.name) = some b.path := by
  constructor
  · rw [hname]
  · simp [runEncodesFS, selectedOf, ha, hb, fsWrite, fsRead, hname]

/-- C9 witness: two same-named selected videos, both successfully encoded;
the shared output file holds the encode of the second input. -/
theorem duplicate_names_overwrite_witness :
    outputPathFor "v.mp4" = outputPathFor "v.mp4" ∧
    fsRead
        (runEncodesFS
          [({ name := "v.mp4", path := "/tmp/in_1", originalSize := 10,
              selected := true }, .success 3),
           ({ name := "v.mp4", path := "/tmp/in_2", originalSize := 20,
              selected := true }, .success 5)] [])
        (outputPathFor "v.mp4") = some "/tmp/in_2" :=
  duplicate_names_overwrite
    { name := "v.mp4", path := "/tmp/in_1", originalSize := 10, selected := true }
    { name := "v.mp4", path := "/tmp/in_2", originalSize := 20, selected := true }
    3 5 rfl rfl rfl

/-- ffprobe output for a 60 fps 1920x1080 clip with audio: the video stream
carries the frame-rate rational string `"60/1"`. -/
def probe60 : ProbeData :=
  { streams :=
      [{ codec_type := "video", width := some 1920, height := some 1080,
         r_frame_rate := "60/1" },
       { codec_type := "audio", width := none, height := none,
         r_frame_rate := "0/0" }],
    format := { duration := some 10, bit_rate := some 5000000, size := some 6250000 } }

/-- The metadata `get_video_info` builds from `probe60`: everything is kept
except the frame-rate string, which is dropped. -/
def info60 : VideoInfo :=
  { width := 1920, height := 1080, duration := 10, bitrate := 5000000,
    size := 6250000, has_audio := true, rFrameRate := none }

/-- C1: the probe carries `"60/1"` and its numeric evaluation succeeds (60),
yet `get_video_info` drops the frame-rate key, so `estimate_size` computes
the fps factor from the 30 fps fallback: for target fps 24 it yields
`24/30`, not the `24/60` the claim requires when parsing succeeds. -/
theorem fps_factor_ignores_probe_frame_rate :
    get_video_info probe60 = some info60 ∧
    evalFrameRate "60/1" = .ok 60 ∧
    fpsFactorOf info60 "24" = .ok (24 / 30) ∧
    ((24 : ℚ) / 30 ≠ 24 / 60) := by
  refine ⟨by decide, ?_, ?_, by norm_num⟩
  · simp +decide [evalFrameRate, splitOnChar, pyIntChars, digitsVal, pyDiv, ok_bind]
  · simp +decide [fpsFactorOf, evalFrameRate_default, pyInt, pyIntChars, digitsVal,
      pyDiv, ok_bind, info60]

/-- Metadata used for the C2 counterexample: 8 seconds, no audio. -/
def infoMB : VideoInfo :=
  { width := 1920, height := 1080, duration := 8, bitrate := 0, size := 0,
    has_audio := false, rFrameRate := none }

/-- C2 counterexample: with original resolution and fps, no audio, bitrate
`"1000k"` and duration 8 s, the spec's byte formula gives 1,000,000 while
`estimate_size` returns 1000000/(1024*1024) — the estimator converts to
megabytes, so its value is not the claimed number of bytes. -/
theorem estimate_returns_megabytes_not_bytes :
    estimate_size (some infoMB) "original" false "original" "1000k"
      = .ok (some (1000000 / (1024 * 1024))) ∧
    specEstimatedBytes 1000000 8 1 1 1 = 1000000 ∧
    ((1000000 : ℚ) / (1024 * 1024) ≠ 1000000) := by
  refine ⟨?_, by norm_num [specEstimatedBytes], by norm_num⟩
  refine (estimate_size_ok_iff _ _ _ _ _ _).mpr ⟨1000000, 1, 1, by decide, ?_, ?_, ?_⟩
  · decide
  · decide
  · show (1000000 : ℚ) / (1024 * 1024) = _
    norm_num [infoMB, audioFactorOf]

/-- C2 amended: for every non-absent metadata and settings whose three
parses succeed, `estimate_size` returns the spec byte formula divided by
1024*1024 (a value in megabytes), with no rounding. -/
theorem estimate_value_is_formula_in_mb (info : VideoInfo) (res : String)
    (ra : Bool) (fps br : String) (b : ℤ) (rf ff : ℚ)
    (hb : parseBitrate br = .ok b)
    (hr : resolutionFactorOf info res = .ok rf)
    (hf : fpsFactorOf info fps = .ok ff) :
    estimate_size (some info) res ra fps br
      = .ok (some (specEstimatedBytes (b : ℚ) info.duration rf ff
          (audioFactorOf ra info) / (1024 * 1024))) :=
  (estimate_size_ok_iff _ _ _ _ _ _).mpr ⟨b, rf, ff, hb, hr, hf, rfl⟩

/-- Metadata of the spec's concrete scenario (1920x1080, 10 s, audio). -/
def infoScenario : VideoInfo :=
  { width := 1920, height := 1080, duration := 10, bitrate := 0, size := 0,
    has_audio := true, rFrameRate := none }

/-- C2 witness: the spec's concrete scenario, estimated as formula/1MB. -/
theorem estimate_value_is_formula_in_mb_witness :
    estimate_size (some infoScenario) "1280x720" true "24" "1000k"
      = .ok (some (specEstimatedBytes 1000000 10 (4 / 9) (4 / 5) 0.85
          / (1024 * 1024))) := by
  have hb : parseBitrate "1000k" = .ok 1000000 := by decide
  have hr : resolutionFactorOf infoScenario "1280x720" = .ok (4 / 9) := by
    simp +decide [resolutionFactorOf, parseResolution, splitOnChar, pyIntChars,
      digitsVal, ok_bind, infoScenario]
    norm_num
  have hf : fpsFactorOf infoScenario "24" = .ok (4 / 5) := by
    simp +decide [fpsFactorOf, evalFrameRate_default, pyInt, pyIntChars, digitsVal,
      pyDiv, ok_bind, infoScenario]
    norm_num
  have h := estimate_value_is_formula_in_mb infoScenario "1280x720" true "24"
    "1000k" 1000000 (4 / 9) (4 / 5) hb hr hf
  exact h

/-- C5: for probed metadata with zero original area and a well-formed
non-original resolution (plus parsable fps and bitrate settings), the
resolution factor is 1.0 and `estimate_size` completes without raising —
in particular without any division by zero. -/
theorem zero_area_resolution_factor_one (p : ProbeData) (info : VideoInfo)
    (res : String) (w h : ℤ) (ra : Bool) (fps br : String)
    (hinfo : get_video_info p = some info)
    (harea : info.width * info.height = 0)
    (hres : res ≠ "original")
    (hparse : parseResolution res = .ok (w, h))
    (hfps : fps = "original" ∨ ∃ n, pyInt fps = .ok n)
    (hbr : ∃ b, parseBitrate br = .ok b) :
    resolutionFactorOf info res = .ok 1 ∧
    ∃ v, estimate_size (some info) res ra fps br = .ok (some v) := by
  have hrf : resolutionFactorOf info res = .ok 1 := by
    simp only [resolutionFactorOf, if_neg hres, hparse, ok_bind]
    simp [harea]
    rfl
  refine ⟨hrf, ?_⟩
  have hfr : info.rFrameRate = none := get_video_info_rFrameRate p info hinfo
  have hff : ∃ f, fpsFactorOf info fps = .ok f := by
    rcases hfps with hor | ⟨n, hn⟩
    · exact ⟨1, by simp [fpsFactorOf, hor]⟩
    · refine ⟨(n : ℚ) / 30, ?_⟩
      have hne : fps ≠ "original" := by
        intro hcon
        rw [hcon] at hn
        rw [show pyInt "original" = .error () from by decide] at hn
        exact Except.noConfusion hn
      simp only [fpsFactorOf, if_neg hne, hfr, Option.getD_some]
      show (do
        let target_fps ← pyInt fps
        pyDiv (target_fps : ℚ)
          (match evalFrameRate "30/1" with
            | .ok v => v
            | .error _ => 30)) = _
      rw [evalFrameRate_default, hn, ok_bind]
      simp [pyDiv]
  obtain ⟨b, hbv⟩ := hbr
  obtain ⟨f, hfv⟩ := hff
  exact ⟨_, (estimate_size_ok_iff info res ra fps br _).mpr
    ⟨b, 1, f, hbv, hrf, hfv, rfl⟩⟩

/-- Probe of a degenerate clip whose video stream reports width 0, height 0. -/
def probeZero : ProbeData :=
  { streams :=
      [{ codec_type := "video", width := some 0, height := some 0,
         r_frame_rate := "30/1" }],
    format := { duration := some 10, bit_rate := none, size := none } }

/-- The metadata `get_video_info` builds from `probeZero`. -/
def infoZero : VideoInfo :=
  { width := 0, height := 0, duration := 10, bitrate := 0, size := 0,
    has_audio := false, rFrameRate := none }

/-- C5 witness: zero-area metadata with resolution 1280x720, fps 24,
bitrate 1000k. -/
theorem zero_area_resolution_factor_one_witness :
    resolutionFactorOf infoZero "1280x720" = .ok 1 ∧
    ∃ v, estimate_size (some infoZero) "1280x720" true "24" "1000k"
      = .ok (some v) :=
  zero_area_resolution_factor_one probeZero infoZero "1280x720" 1280 720 true
    "24" "1000k" (by decide) (by decide) (by decide) (by decide)
    (Or.inr ⟨24, by decide⟩) ⟨1000000, by decide⟩

/-- C10: the estimate is linear in the metadata's duration: scaling the
duration by a non-negative `c` scales a successful estimate by `c`, and a
zero duration gives estimate 0. -/
theorem estimate_linear_in_duration (info : VideoInfo) (res : String) (ra : Bool)
    (fps br : String) (c v : ℚ) (_hc : 0 ≤ c)
    (h : estimate_size (some info) res ra fps br = .ok (some v)) :
    estimate_size (some { info with duration := c * info.duration }) res ra fps br
      = .ok (some (c * v)) ∧ (info.duration = 0 → v = 0) := by
  obtain ⟨b, rf, ff, hb, hr, hf, hv⟩ := (estimate_size_ok_iff _ _ _ _ _ _).mp h
  constructor
  · refine (estimate_size_ok_iff _ _ _ _ _ _).mpr ⟨b, rf, ff, hb, hr, hf, ?_⟩
    show c * v = ((b : ℚ) / 8) * (c * info.duration) * rf * ff
      * audioFactorOf ra info / (1024 * 1024)
    rw [hv]
    ring
  · intro hd
    rw [hv, hd]
    ring

/-- C10 witness: doubling a 10-second clip's duration doubles the estimate. -/
theorem estimate_linear_in_duration_witness :
    estimate_size (some { infoScenario with
        duration := 2 * infoScenario.duration }) "original" false "original"
        "1000k" = .ok (some (2 * (78125 / 65536))) ∧
    (infoScenario.duration = 0 → (78125 / 65536 : ℚ) = 0) := by
  refine estimate_linear_in_duration infoScenario "original" false "original"
    "1000k" 2 (78125 / 65536) (by norm_num) ?_
  refine (estimate_size_ok_iff _ _ _ _ _ _).mpr ⟨1000000, 1, 1, by decide, by decide,
    by decide, ?_⟩
  show (78125 / 65536 : ℚ) = _
  norm_num [infoScenario, audioFactorOf]

/-- The reduction stored by `reportOf`: raised error exactly when the total
original size is zero, the computed percentage otherwise. -/
theorem reportOf_reduction (results : List CompressedEntry) (s : ReportStats)
    (hs : reportOf results = some s) :
    (s.totalOriginal = 0 → s.reduction = .error ()) ∧
    (s.totalOriginal ≠ 0 →
      s.reduction = .ok ((1 - s.totalCompressed / s.totalOriginal) * 100)) := by
  unfold reportOf at hs
  by_cases hempty : results.isEmpty
  · rw [if_pos hempty] at hs
    exact absurd hs (by simp)
  · rw [if_neg hempty] at hs
    have hs' := Option.some.inj hs
    subst hs'
    constructor
    · intro h0
      show (do
        let q ← pyDiv ((results.map (fun v : CompressedEntry => v.compressedSize)).sum)
          ((results.map (fun v : CompressedEntry => v.originalSize)).sum)
        pure ((1 - q) * 100)) = Except.error ()
      have h0' : (results.map (fun v : CompressedEntry => v.originalSize)).sum = 0 := h0
      rw [h0']
      simp [pyDiv, error_bind]
    · intro hne
      have hne' : (results.map (fun v : CompressedEntry => v.originalSize)).sum ≠ 0 := hne
      show (do
        let q ← pyDiv ((results.map (fun v : CompressedEntry => v.compressedSize)).sum)
          ((results.map (fun v : CompressedEntry => v.originalSize)).sum)
        pure ((1 - q) * 100)) = _
      simp [pyDiv, hne', ok_bind]

/-- C3 amended: the zero-successes case is guarded — the whole stats
section, reduction included, is skipped — while the zero-total-original
case is not: with at least one success and total original size 0 the
reduction computation divides by zero and raises instead of reporting a
value. -/
theorem report_reduction_guards (batch : Batch) :
    (compressSelected batch = [] → statsOf (pressCompress batch) = none) ∧
    ∀ s, statsOf (pressCompress batch) = some s →
      (s.totalOriginal = 0 → s.reduction = .error ()) ∧
      (s.totalOriginal ≠ 0 →
        s.reduction = .ok ((1 - s.totalCompressed / s.totalOriginal) * 100)) := by
  constructor
  · intro hemp
    cases hsel : (selectedOf batch).isEmpty with
    | true => simp [pressCompress, hsel, statsOf]
    | false => simp [pressCompress, hsel, statsOf, reportOf, hemp]
  · intro s hs
    cases hsel : (selectedOf batch).isEmpty with
    | true => simp [pressCompress, hsel, statsOf] at hs
    | false =>
        simp only [pressCompress, hsel, Bool.false_eq_true, if_false, statsOf] at hs
        exact reportOf_reduction _ s hs

/-- A batch whose only video compresses successfully but has original size 0. -/
def batchZeroOriginal : Batch :=
  [({ name := "a.mp4", path := "/tmp/in_a", originalSize := 0,
      selected := true }, .success 0)]

/-- C3 counterexample: one successful item with original size 0 makes the
results section compute the overall reduction by dividing by zero, which
raises — it is not guarded and not reported as "not applicable". -/
theorem report_zero_original_raises :
    statsOf (pressCompress batchZeroOriginal)
      = some { totalOriginal := 0, totalCompressed := 0, reduction := .error () } := by
  simp [pressCompress, batchZeroOriginal, selectedOf, compressSelected, statsOf,
    reportOf, pyDiv, encodeInvocations]

/-- A batch with one selected success: original 10 MB, compressed 3 MB. -/
def batchOne : Batch :=
  [({ name := "a.mp4", path := "/tmp/in_a", originalSize := 10,
      selected := true }, .success 3)]

/-- C3 witness: empty batch shows no stats; a 10 MB to 3 MB success has a
computed (non-raising) reduction of (1 - 3/10) * 100. -/
theorem report_reduction_guards_witness :
    statsOf (pressCompress ([] : Batch)) = none ∧
    (Except.ok 70 : Py ℚ) = .ok ((1 - (3 : ℚ) / 10) * 100) := by
  constructor
  · exact (report_reduction_guards []).1 rfl
  · have hs : statsOf (pressCompress batchOne)
        = some { totalOriginal := 10, totalCompressed := 3, reduction := .ok 70 } := by
      simp [pressCompress, batchOne, selectedOf, compressSelected, statsOf,
        reportOf, pyDiv, encodeInvocations]
      norm_num
    exact ((report_reduction_guards batchOne).2
      { totalOriginal := 10, totalCompressed := 3, reduction := .ok 70 } hs).2
      (by norm_num)

/-- Batch of the claim's concrete scenario: A succeeds (10 MB original,
3 MB compressed), B fails. -/
def batchAB : Batch :=
  [({ name := "a.mp4", path := "/tmp/in_a", originalSize := 10,
      selected := true }, .success 3),
   ({ name := "b.mp4", path := "/tmp/in_b", originalSize := 20,
      selected := true }, .failure)]

/-- C4: the compress loop is a filter-map over the selected items (a failure
contributes nothing and later items are still processed), and in the
two-item scenario with A succeeding (10 MB to 3 MB) and B failing, both are
invoked, only A is aggregated, and the report shows totals 10 and 3 with a
70 percent reduction. -/
theorem batch_failure_independence :
    (∀ batch : Batch,
      compressSelected batch = (selectedOf batch).filterMap
        (fun vo =>
          match vo.2 with
          | .success s => some { name := vo.1.name,
                                 outputPath := outputPathFor vo.1.name,
                                 originalSize := vo.1.originalSize,
                                 compressedSize := s }
          | .failure => none)) ∧
    pressCompress batchAB
      = .ran [("/tmp/in_a", outputPathFor "a.mp4"), ("/tmp/in_b", outputPathFor "b.mp4")]
          [{ name := "a.mp4", outputPath := outputPathFor "a.mp4",
             originalSize := 10, compressedSize := 3 }]
          (some { totalOriginal := 10, totalCompressed := 3, reduction := .ok 70 }) := by
  constructor
  · intro batch
    show (selectedOf batch).foldl _ [] = _
    rw [compressLoop_filterMap]
    simp
  · simp [pressCompress, batchAB, selectedOf, compressSelected, reportOf,
      encodeInvocations, pyDiv]
    norm_num
